import Mathlib

-- Shallow embedding of the Ingres metadata writer found in
-- drivers/ingres/ingres.go, together with the parts of the ResultSet
-- contract (spec section 4.2) that the writer relies on.  Reader calls are
-- embedded by their observable outcome (interface absent, not-supported
-- sentinel, other error, or a list of rows), loops over ResultSets become
-- structural recursion over the buffered row list, and output written to the
-- io.Writer is collected into a list.

namespace Ingres

-- Entity records (spec section 3); only the fields the writer touches.

structure Table where
  catalog : String
  schema : String
  name : String
  type : String
  rows : Int
  deriving DecidableEq

structure Sequence where
  schema : String
  name : String
  deriving DecidableEq

structure Index where
  catalog : String
  schema : String
  table : String
  name : String
  type : String
  isPrimary : Bool
  isUnique : Bool
  deriving DecidableEq

structure IndexColumn where
  name : String
  dataType : String
  deriving DecidableEq

structure Constraint where
  catalog : String
  schema : String
  table : String
  name : String
  type : String
  checkClause : String
  foreignTable : String
  updateRule : String
  deleteRule : String
  deriving DecidableEq

structure ConstraintColumn where
  name : String
  foreignName : String
  deriving DecidableEq

structure Trigger where
  name : String
  definition : String
  deriving DecidableEq

structure Function where
  catalog : String
  schema : String
  name : String
  specificName : String
  resultType : String
  argTypes : String
  type : String
  volatility : String
  security : String
  language : String
  source : String
  deriving DecidableEq

structure FunctionColumn where
  name : String
  type : String
  dataType : String
  ordinalPosition : Int
  deriving DecidableEq

structure ColumnStat where
  schema : String
  table : String
  name : String
  avgWidth : Int
  nullFrac : ℚ
  numDistinct : Int
  min : String
  max : String
  mean : String
  topN : List String
  topNFreqs : List ℚ
  deriving DecidableEq

-- Go's strings.Join.

def joinStr (sep : String) : List String → String
  | [] => ""
  | [x] => x
  | x :: y :: rest => x ++ sep ++ joinStr sep (y :: rest)

-- parsePattern (ingres.go:857-864).  strings.SplitN(pattern, ".", 2) splits
-- on the first dot; strings.ReplaceAll(s, "*", "%") replaces each star, both
-- embedded on the character list of the string.

def starToPct (l : List Char) : List Char :=
  l.map (fun ch => if ch = '*' then '%' else ch)

def splitFirstDot : List Char → List Char × List Char
  | [] => ([], [])
  | ch :: rest =>
    if ch = '.' then ([], rest)
    else
      let r := splitFirstDot rest
      (ch :: r.1, r.2)

def parsePattern (pattern : String) : Except String (String × String) :=
  if pattern.data.contains '.' then
    let p := splitFirstDot pattern.data
    Except.ok (⟨starToPct p.1⟩, ⟨starToPct p.2⟩)
  else
    Except.ok ("", ⟨starToPct pattern.data⟩)

theorem splitFirstDot_eq (l : List Char) :
    splitFirstDot l =
      (l.takeWhile (fun ch => ch != '.'), (l.dropWhile (fun ch => ch != '.')).tail) := by
  induction l with
  | nil => rfl
  | cons ch rest ih =>
    by_cases h : ch = '.'
    · simp [splitFirstDot, h, List.takeWhile_cons, List.dropWhile_cons]
    · simp [splitFirstDot, h, List.takeWhile_cons, List.dropWhile_cons, ih]

-- getConstraintColumns (ingres.go:506-519): one loop appends, for each
-- constraint-column row, the row's Name to the first list and the same row's
-- ForeignName to the second list, then joins both with ", ".

def constraintColumnLists : List ConstraintColumn → List String × List String
  | [] => ([], [])
  | c :: rest =>
    let r := constraintColumnLists rest
    (c.name :: r.1, c.foreignName :: r.2)

def getConstraintColumns (q : Except String (List ConstraintColumn)) :
    Except String (String × String) :=
  match q with
  | .error e => .error e
  | .ok rows =>
    let p := constraintColumnLists rows
    .ok (joinStr ", " p.1, joinStr ", " p.2)

/-- C3: parsePattern is total (always returns ok); with a dot it splits on the
first dot into schema and name fragments, without one the schema fragment is
empty; in both fragments every star becomes a percent sign and every other
character is passed through unchanged (position by position); and the three
examples from the spec evaluate as stated. -/
theorem parsePattern_spec (p : String) :
    (parsePattern p =
      (if p.data.contains '.' then
        Except.ok (⟨starToPct (p.data.takeWhile (fun ch => ch != '.'))⟩,
                   ⟨starToPct ((p.data.dropWhile (fun ch => ch != '.')).tail)⟩)
      else
        Except.ok ("", ⟨starToPct p.data⟩))) ∧
    (∀ (l : List Char) (i : Nat),
      (starToPct l)[i]? = (l[i]?).map (fun ch => if ch = '*' then '%' else ch)) ∧
    (∀ l : List Char, (starToPct l).length = l.length) ∧
    parsePattern "tutorial.hits_v1" = Except.ok ("tutorial", "hits_v1") ∧
    parsePattern "hits_v1" = Except.ok ("", "hits_v1") ∧
    parsePattern "tut*.h*" = Except.ok ("tut%", "h%") := by
  refine ⟨?_, ?_, ?_, by rfl, by rfl, by rfl⟩
  · simp [parsePattern, splitFirstDot_eq]
  · intro l i
    simp [starToPct]
  · intro l
    simp [starToPct]

/-- C10: getConstraintColumns builds two lists of equal length, one element per
constraint-column row, pairing each row's column name with the same row's
foreign column name at the same position, and returns both joined with
", ". -/
theorem getConstraintColumns_paired (rows : List ConstraintColumn) :
    (constraintColumnLists rows).1 = rows.map (fun c => c.name) ∧
    (constraintColumnLists rows).2 = rows.map (fun c => c.foreignName) ∧
    (constraintColumnLists rows).1.length = rows.length ∧
    (constraintColumnLists rows).2.length = rows.length ∧
    getConstraintColumns (Except.ok rows) =
      Except.ok (joinStr ", " (rows.map (fun c => c.name)),
                 joinStr ", " (rows.map (fun c => c.foreignName))) := by
  have h : (constraintColumnLists rows).1 = rows.map (fun c => c.name) ∧
      (constraintColumnLists rows).2 = rows.map (fun c => c.foreignName) := by
    induction rows with
    | nil => exact ⟨rfl, rfl⟩
    | cons c rest ih => simp [constraintColumnLists, ih.1, ih.2]
  refine ⟨h.1, h.2, ?_, ?_, ?_⟩
  · simp [h.1]
  · simp [h.2]
  · simp [getConstraintColumns, h.1, h.2]

-- Outcome of one optional capability-reader call, as the writer observes it:
-- the interface may be absent from the concrete reader (type assertion fails),
-- the call may return the text.ErrNotSupported sentinel (with a nil ResultSet),
-- fail with any other error, or succeed with a buffered row list.

inductive RO (α : Type) where
  | absent
  | notSupported
  | failed (e : String)
  | ok (rows : List α)

-- One line written to the summary io.Writer.  Section headers are written by
-- fmt.Fprintln(out, label); everything else is a detail row.

inductive Line where
  | sectionLabel (s : String)
  | detail (s : String)
  deriving DecidableEq

-- Go's strings.HasSuffix, on the character lists of the strings.

def goHasSuffix (s suf : String) : Bool :=
  List.isSuffixOf suf.data s.data

-- The post-filter installed for the check-constraint section
-- (ingres.go:335-338).

def checkConstraintFilter (c : Constraint) : Bool :=
  decide (c.type = "CHECK" ∧ c.checkClause ≠ "" ∧
    goHasSuffix c.checkClause " IS NOT NULL" = false)

def checkSectionRows (rows : List Constraint) : List Constraint :=
  rows.filter checkConstraintFilter

def fkFilter (c : Constraint) : Bool :=
  decide (c.type = "FOREIGN KEY")

-- The printers passed to describeTableConstraints (ingres.go:340-343,
-- 353-367, 377-392), embedding the fmt.Fprintf format strings.

def checkLineOf (c : Constraint) : Line :=
  Line.detail ("  \"" ++ c.name ++ "\" " ++ c.type ++ " (" ++ c.checkClause ++ ")")

def checkPrinter (c : Constraint) : Except String Line :=
  Except.ok (checkLineOf c)

def fkPrinter (fetchCC : Constraint → Except String (List ConstraintColumn))
    (c : Constraint) : Except String Line :=
  match getConstraintColumns (fetchCC c) with
  | .error e => .error e
  | .ok p =>
    .ok (Line.detail ("  \"" ++ c.name ++ "\" " ++ c.type ++ " (" ++ p.1 ++
      ") REFERENCES " ++ c.foreignTable ++ "(" ++ p.2 ++ ") ON UPDATE " ++
      c.updateRule ++ " ON DELETE " ++ c.deleteRule))

def refPrinter (fetchCC : Constraint → Except String (List ConstraintColumn))
    (c : Constraint) : Except String Line :=
  match getConstraintColumns (fetchCC c) with
  | .error e => .error e
  | .ok p =>
    .ok (Line.detail ("  TABLE \"" ++ c.table ++ "\" CONSTRAINT \"" ++ c.name ++
      "\" " ++ c.type ++ " (" ++ p.1 ++ ") REFERENCES " ++ c.foreignTable ++
      "(" ++ p.2 ++ ") ON UPDATE " ++ c.updateRule ++ " ON DELETE " ++
      c.deleteRule))

-- The printing loop over a filtered constraint ResultSet: rows printed so far
-- stay on the writer even if a later printer call fails.

def printAll {α : Type} (printer : α → Except String Line) :
    List α → List Line × Option String
  | [] => ([], none)
  | c :: rest =>
    match printer c with
    | .error e => ([], some e)
    | .ok line =>
      let r := printAll printer rest
      (line :: r.1, r.2)

-- describeTableConstraints (ingres.go:477-504): capability absent or the
-- not-supported sentinel silently skip the section; any other query error is
-- wrapped and returned; otherwise the client-side post-filter is installed
-- (ResultSet.SetFilter/Len, spec section 4.2, modelled as List.filter) and, if
-- any row survives, the label and one line per row are printed.

def describeTableConstraints (q : RO Constraint) (postFilter : Constraint → Bool)
    (label : String) (printer : Constraint → Except String Line) :
    List Line × Option String :=
  match q with
  | .absent => ([], none)
  | .notSupported => ([], none)
  | .failed e => ([], some ("failed to list constraints: " ++ e))
  | .ok rows =>
    let kept := rows.filter postFilter
    if kept.length = 0 then ([], none)
    else
      let r := printAll printer kept
      (Line.sectionLabel label :: r.1, r.2)

-- getIndexColumns (ingres.go:464-475).

def getIndexColumns (q : Except String (List IndexColumn)) : Except String String :=
  match q with
  | .error e => .error e
  | .ok rows => .ok (joinStr ", " (rows.map (fun c => c.name)))

def indexLine (i : Index) (cols : String) : Line :=
  let primary := if i.isPrimary then "PRIMARY_KEY, " else ""
  let unique := if i.isUnique then "UNIQUE, " else ""
  Line.detail ("  \"" ++ i.name ++ "\" " ++ primary ++ unique ++ i.type ++
    " (" ++ cols ++ ")")

def printIndexes (fetchIC : Index → Except String (List IndexColumn)) :
    List Index → List Line × Option String
  | [] => ([], none)
  | i :: rest =>
    match getIndexColumns (fetchIC i) with
    | .error e => ([], some ("failed to get columns of index " ++ i.name ++ ": " ++ e))
    | .ok cols =>
      let r := printIndexes fetchIC rest
      (indexLine i cols :: r.1, r.2)

-- describeTableIndexes (ingres.go:427-462).

def describeTableIndexes (q : RO Index)
    (fetchIC : Index → Except String (List IndexColumn)) :
    List Line × Option String :=
  match q with
  | .absent => ([], none)
  | .notSupported => ([], none)
  | .failed e => ([], some ("failed to list indexes: " ++ e))
  | .ok rows =>
    if rows.length = 0 then ([], none)
    else
      let r := printIndexes fetchIC rows
      (Line.sectionLabel "Indexes:" :: r.1, r.2)

-- describeTableTriggers (ingres.go:402-425).

def describeTableTriggers (q : RO Trigger) : List Line × Option String :=
  match q with
  | .absent => ([], none)
  | .notSupported => ([], none)
  | .failed e => ([], some ("failed to list triggers: " ++ e))
  | .ok rows =>
    if rows.length = 0 then ([], none)
    else
      (Line.sectionLabel "Triggers:" ::
        rows.map (fun t => Line.detail ("  \"" ++ t.name ++ "\" " ++ t.definition)),
       none)

-- The five reader calls the summary makes, in source order.

structure SummaryInput where
  idx : RO Index
  fetchIC : Index → Except String (List IndexColumn)
  checkQ : RO Constraint
  fkQ : RO Constraint
  refQ : RO Constraint
  fetchCC : Constraint → Except String (List ConstraintColumn)
  trig : RO Trigger

-- tableDetailsSummary (ingres.go:326-400).  The first three sections abort on
-- error; the error of the Referenced-by call is assigned to err at line 372
-- but, unlike every other section, never checked: line 394 overwrites err with
-- the result of describeTableTriggers, so the final error is the triggers'.

def tableDetailsSummary (inp : SummaryInput) : List Line × Option String :=
  let r1 := describeTableIndexes inp.idx inp.fetchIC
  if r1.2.isSome then r1
  else
    let r2 := describeTableConstraints inp.checkQ checkConstraintFilter
      "Check constraints:" checkPrinter
    if r2.2.isSome then (r1.1 ++ r2.1, r2.2)
    else
      let r3 := describeTableConstraints inp.fkQ fkFilter
        "Foreign-key constraints:" (fkPrinter inp.fetchCC)
      if r3.2.isSome then (r1.1 ++ r2.1 ++ r3.1, r3.2)
      else
        let r4 := describeTableConstraints inp.refQ fkFilter
          "Referenced by:" (refPrinter inp.fetchCC)
        let r5 := describeTableTriggers inp.trig
        (r1.1 ++ r2.1 ++ r3.1 ++ r4.1 ++ r5.1, r5.2)

-- Formalisation of the claim's words for C5 only: a "bare NOT-NULL check" is
-- a clause consisting of nothing but a single column token (non-empty, no
-- space) followed by " IS NOT NULL".  Compared against the source filter,
-- which tests only the suffix.

def specBareNotNullCheck (s : String) : Bool :=
  let suf := (" IS NOT NULL" : String).data
  let d := s.data
  List.isSuffixOf suf d &&
    !(d.take (d.length - suf.length)).isEmpty &&
    (d.take (d.length - suf.length)).all (fun ch => ch != ' ')

def c5row : Constraint :=
  { catalog := "", schema := "s", table := "t", name := "chk1", type := "CHECK",
    checkClause := "a > 0 OR b IS NOT NULL", foreignTable := "",
    updateRule := "", deleteRule := "" }

theorem printAll_checkPrinter (l : List Constraint) :
    printAll checkPrinter l = (l.map checkLineOf, none) := by
  induction l with
  | nil => rfl
  | cons c rest ih => simp [printAll, checkPrinter, ih]

/-- C5 counterexample: the constraint row with check clause
"a > 0 OR b IS NOT NULL" has type CHECK, a non-empty clause that is not a bare
NOT-NULL check, yet it does not appear in the check-constraint section,
because the source filter excludes every clause ending in " IS NOT NULL". -/
theorem checkSection_spec_mismatch :
    ¬ ((c5row ∈ checkSectionRows [c5row]) ↔
      (c5row.type = "CHECK" ∧ c5row.checkClause ≠ "" ∧
        specBareNotNullCheck c5row.checkClause = false)) := by
  decide

/-- C5 (amended): a constraint row appears in the check-constraint section iff
its type is CHECK, its check clause is non-empty, and the clause does not end
with " IS NOT NULL"; the section prints exactly the surviving rows, after the
label, in order. -/
theorem checkSection_filter (rows : List Constraint) :
    (∀ c : Constraint,
      c ∈ checkSectionRows rows ↔
        (c ∈ rows ∧ c.type = "CHECK" ∧ c.checkClause ≠ "" ∧
          goHasSuffix c.checkClause " IS NOT NULL" = false)) ∧
    (describeTableConstraints (RO.ok rows) checkConstraintFilter
        "Check constraints:" checkPrinter).1 =
      (if checkSectionRows rows = [] then []
       else Line.sectionLabel "Check constraints:" ::
         (checkSectionRows rows).map checkLineOf) := by
  constructor
  · intro c
    simp [checkSectionRows, List.mem_filter, checkConstraintFilter, and_assoc]
  · simp only [describeTableConstraints, checkSectionRows]
    by_cases h : (rows.filter checkConstraintFilter).length = 0
    · simp [h, List.length_eq_zero.mp h]
    · have : ¬ rows.filter checkConstraintFilter = [] := by
        intro he
        exact h (by simp [he])
      simp [h, this, printAll_checkPrinter]

-- The section headers occurring in a stretch of summary output, in order.

def labelsOf : List Line → List String
  | [] => []
  | Line.sectionLabel s :: rest => s :: labelsOf rest
  | Line.detail _ :: rest => labelsOf rest

def detailOnly {α : Type} (p : α → Except String Line) : Prop :=
  ∀ a line, p a = Except.ok line → ∃ s, line = Line.detail s

theorem labelsOf_append (a b : List Line) :
    labelsOf (a ++ b) = labelsOf a ++ labelsOf b := by
  induction a with
  | nil => rfl
  | cons x rest ih => cases x <;> simp [labelsOf, ih]

theorem detailOnly_checkPrinter : detailOnly checkPrinter := by
  intro a line h
  refine ⟨"  \"" ++ a.name ++ "\" " ++ a.type ++ " (" ++ a.checkClause ++ ")", ?_⟩
  simpa [checkPrinter, checkLineOf] using h.symm

theorem detailOnly_fkPrinter
    (fetchCC : Constraint → Except String (List ConstraintColumn)) :
    detailOnly (fkPrinter fetchCC) := by
  intro a line h
  unfold fkPrinter at h
  cases hq : getConstraintColumns (fetchCC a) with
  | error e => rw [hq] at h; cases h
  | ok p =>
    rw [hq] at h
    simp only [Except.ok.injEq] at h
    exact ⟨_, h.symm⟩

theorem detailOnly_refPrinter
    (fetchCC : Constraint → Except String (List ConstraintColumn)) :
    detailOnly (refPrinter fetchCC) := by
  intro a line h
  unfold refPrinter at h
  cases hq : getConstraintColumns (fetchCC a) with
  | error e => rw [hq] at h; cases h
  | ok p =>
    rw [hq] at h
    simp only [Except.ok.injEq] at h
    exact ⟨_, h.symm⟩

theorem printAll_labels {α : Type} (p : α → Except String Line)
    (hp : detailOnly p) (l : List α) : labelsOf (printAll p l).1 = [] := by
  induction l with
  | nil => rfl
  | cons a rest ih =>
    simp only [printAll]
    cases hpa : p a with
    | error e => simp [labelsOf]
    | ok line =>
      obtain ⟨s, rfl⟩ := hp a line hpa
      simp [labelsOf, ih]

theorem dtc_labels (q : RO Constraint) (pf : Constraint → Bool) (label : String)
    (p : Constraint → Except String Line) (hp : detailOnly p) :
    List.Sublist (labelsOf (describeTableConstraints q pf label p).1) [label] := by
  cases q with
  | absent => simp [describeTableConstraints, labelsOf, List.nil_sublist]
  | notSupported => simp [describeTableConstraints, labelsOf, List.nil_sublist]
  | failed e => simp [describeTableConstraints, labelsOf, List.nil_sublist]
  | ok rows =>
    simp only [describeTableConstraints]
    by_cases h : (rows.filter pf).length = 0
    · simp [h, labelsOf, List.nil_sublist]
    · simp only [h, if_false]
      rw [show labelsOf (Line.sectionLabel label :: (printAll p (rows.filter pf)).1) =
        label :: labelsOf (printAll p (rows.filter pf)).1 from rfl]
      rw [printAll_labels p hp]

theorem printIndexes_labels (fetchIC : Index → Except String (List IndexColumn))
    (l : List Index) : labelsOf (printIndexes fetchIC l).1 = [] := by
  induction l with
  | nil => rfl
  | cons i rest ih =>
    simp only [printIndexes]
    cases hq : getIndexColumns (fetchIC i) with
    | error e => simp [labelsOf]
    | ok cols => simp [labelsOf, indexLine, ih]

theorem dti_labels (q : RO Index)
    (fetchIC : Index → Except String (List IndexColumn)) :
    List.Sublist (labelsOf (describeTableIndexes q fetchIC).1) ["Indexes:"] := by
  cases q with
  | absent => simp [describeTableIndexes, labelsOf, List.nil_sublist]
  | notSupported => simp [describeTableIndexes, labelsOf, List.nil_sublist]
  | failed e => simp [describeTableIndexes, labelsOf, List.nil_sublist]
  | ok rows =>
    simp only [describeTableIndexes]
    by_cases h : rows.length = 0
    · simp [h, labelsOf, List.nil_sublist]
    · simp only [h, if_false]
      rw [show labelsOf (Line.sectionLabel "Indexes:" :: (printIndexes fetchIC rows).1) =
        "Indexes:" :: labelsOf (printIndexes fetchIC rows).1 from rfl]
      rw [printIndexes_labels fetchIC rows]

theorem labelsOf_map_detail {α : Type} (f : α → String) (l : List α) :
    labelsOf (l.map (fun t => Line.detail (f t))) = [] := by
  induction l with
  | nil => rfl
  | cons a rest ih => simp [labelsOf, ih]

theorem dtt_labels (q : RO Trigger) :
    List.Sublist (labelsOf (describeTableTriggers q).1) ["Triggers:"] := by
  cases q with
  | absent => simp [describeTableTriggers, labelsOf, List.nil_sublist]
  | notSupported => simp [describeTableTriggers, labelsOf, List.nil_sublist]
  | failed e => simp [describeTableTriggers, labelsOf, List.nil_sublist]
  | ok rows =>
    simp only [describeTableTriggers]
    by_cases h : rows.length = 0
    · simp [h, labelsOf, List.nil_sublist]
    · simp only [h, if_false]
      rw [show labelsOf (Line.sectionLabel "Triggers:" ::
          rows.map (fun t => Line.detail ("  \"" ++ t.name ++ "\" " ++ t.definition))) =
        "Triggers:" :: labelsOf
          (rows.map (fun t => Line.detail ("  \"" ++ t.name ++ "\" " ++ t.definition))) from rfl]
      rw [labelsOf_map_detail]

/-- C4: whatever the five reader calls return, the section headers produced by
the summary appendix appear in the fixed order Indexes, Check constraints,
Foreign-key constraints, Referenced by, Triggers (each section present at most
once, sections may be omitted, never reordered). -/
theorem tableDetailsSummary_section_order (inp : SummaryInput) :
    List.Sublist (labelsOf (tableDetailsSummary inp).1)
      ["Indexes:", "Check constraints:", "Foreign-key constraints:",
       "Referenced by:", "Triggers:"] := by
  have h1 := dti_labels inp.idx inp.fetchIC
  have h2 := dtc_labels inp.checkQ checkConstraintFilter "Check constraints:"
    checkPrinter detailOnly_checkPrinter
  have h3 := dtc_labels inp.fkQ fkFilter "Foreign-key constraints:"
    (fkPrinter inp.fetchCC) (detailOnly_fkPrinter inp.fetchCC)
  have h4 := dtc_labels inp.refQ fkFilter "Referenced by:"
    (refPrinter inp.fetchCC) (detailOnly_refPrinter inp.fetchCC)
  have h5 := dtt_labels inp.trig
  unfold tableDetailsSummary
  cases he1 : (describeTableIndexes inp.idx inp.fetchIC).2.isSome with
  | true =>
    simp only [he1, if_true]
    exact h1.trans (by decide)
  | false =>
    simp only [he1, Bool.false_eq_true, if_false]
    cases he2 : (describeTableConstraints inp.checkQ checkConstraintFilter
        "Check constraints:" checkPrinter).2.isSome with
    | true =>
      simp only [he2, if_true]
      rw [labelsOf_append]
      have hs : List.Sublist (["Indexes:"] ++ ["Check constraints:"])
          ["Indexes:", "Check constraints:", "Foreign-key constraints:",
           "Referenced by:", "Triggers:"] := by decide
      exact (h1.append h2).trans hs
    | false =>
      simp only [he2, Bool.false_eq_true, if_false]
      cases he3 : (describeTableConstraints inp.fkQ fkFilter
          "Foreign-key constraints:" (fkPrinter inp.fetchCC)).2.isSome with
      | true =>
        simp only [he3, if_true]
        rw [labelsOf_append, labelsOf_append]
        have hs : List.Sublist
            (["Indexes:"] ++ ["Check constraints:"] ++ ["Foreign-key constraints:"])
            ["Indexes:", "Check constraints:", "Foreign-key constraints:",
             "Referenced by:", "Triggers:"] := by decide
        exact ((h1.append h2).append h3).trans hs
      | false =>
        simp only [he3, Bool.false_eq_true, if_false]
        rw [labelsOf_append, labelsOf_append, labelsOf_append, labelsOf_append]
        exact (((h1.append h2).append h3).append h4).append h5

-- A concrete run in which every section succeeds except the Referenced-by
-- constraints query, which fails with an ordinary (non-sentinel) error.

def refFailInput : SummaryInput :=
  { idx := RO.ok [], fetchIC := fun _ => Except.ok [],
    checkQ := RO.ok [], fkQ := RO.ok [],
    refQ := RO.failed "connection reset",
    fetchCC := fun _ => Except.ok [], trig := RO.ok [] }

/-- C1: the claim says any non-sentinel error of a section query aborts the
describe and is propagated, but when the Referenced-by constraints query fails
with an ordinary error the summary still completes with no error: the section
itself produces the wrapped error, yet tableDetailsSummary drops it (the
source overwrites err at ingres.go:394 before checking it). -/
theorem referencedByErrorDropped :
    (tableDetailsSummary refFailInput).2 = none ∧
    (describeTableConstraints refFailInput.refQ fkFilter "Referenced by:"
        (refPrinter refFailInput.fetchCC)).2 =
      some "failed to list constraints: connection reset" := by
  exact ⟨rfl, rfl⟩

-- getFunctionColumns (ingres.go:184-208): the loop skips the return-parameter
-- row (ordinal position 0) and builds one fragment per remaining row from the
-- parameter mode (dropped when "IN" or empty, else with a trailing space), the
-- name (dropped when empty, else with a trailing space) and the data type,
-- joined with ", ".

def formatArg (c : FunctionColumn) : String :=
  let typ := if c.type ≠ "IN" ∧ c.type ≠ "" then c.type ++ " " else ""
  let nm := if c.name ≠ "" then c.name ++ " " else ""
  typ ++ nm ++ c.dataType

def collectArgs : List FunctionColumn → List String
  | [] => []
  | c :: rest =>
    if c.ordinalPosition = 0 then collectArgs rest
    else formatArg c :: collectArgs rest

def getFunctionColumnsE (q : Except String (List FunctionColumn)) :
    Except String String :=
  match q with
  | .error e => .error e
  | .ok cols => .ok (joinStr ", " (collectArgs cols))

-- Observable events of DescribeFunctions (ingres.go:147-181): one
-- FunctionColumnReader query per function row during the first pass, then
-- Reset on the function ResultSet (modelled from the spec, section 4.2: Reset
-- rewinds the buffered rows without re-querying), then the hand-off to the
-- renderer.

inductive FEvent where
  | queryCols (schema specificName : String)
  | reset
  | render
  deriving DecidableEq

def firstPass (fetch : Function → Except String (List FunctionColumn)) :
    List Function → Except String (List Function × List FEvent)
  | [] => .ok ([], [])
  | f :: rest =>
    match getFunctionColumnsE (fetch f) with
    | .error e =>
      .error ("failed to get columns of function " ++ f.schema ++ "." ++
        f.specificName ++ ": " ++ e)
    | .ok args =>
      match firstPass fetch rest with
      | .error e => .error e
      | .ok r =>
        .ok ({ f with argTypes := args } :: r.1,
             FEvent.queryCols f.schema f.specificName :: r.2)

-- The system-schema post-filter applied when showSystem is false (modelled
-- from the spec, section 4.2: SetFilter installs a client-side predicate that
-- Next and Len respect).

def visibleFuncs (funcs : List Function) (showSystem : Bool) (sys : List String) :
    List Function :=
  if showSystem then funcs else funcs.filter (fun f => !(sys.contains f.schema))

def describeFunctions (funcs : List Function) (showSystem : Bool)
    (sys : List String) (hasFCR : Bool)
    (fetch : Function → Except String (List FunctionColumn)) :
    Except String (List Function × List FEvent) :=
  let visible := visibleFuncs funcs showSystem sys
  if hasFCR then
    match firstPass fetch visible with
    | .error e => .error e
    | .ok r => .ok (r.1, r.2 ++ [FEvent.reset, FEvent.render])
  else
    .ok (visible, [FEvent.render])

theorem firstPass_ok (cols : Function → List FunctionColumn)
    (l : List Function) :
    firstPass (fun f => Except.ok (cols f)) l =
      Except.ok
        (l.map (fun f => { f with argTypes := joinStr ", " (collectArgs (cols f)) }),
         l.map (fun f => FEvent.queryCols f.schema f.specificName)) := by
  induction l with
  | nil => rfl
  | cons f rest ih => simp [firstPass, getFunctionColumnsE, ih]

/-- C6: when FunctionColumnReader is available and each per-function column
query succeeds, DescribeFunctions performs one column query per (visible)
function row in order, then Reset, then the render hand-off, and every row is
enriched with its argument string; within that string, rows with ordinal
position 0 are skipped and each remaining row's fragment consists of the mode
(omitted when "IN" or empty), the name (omitted when empty) and the data type,
space-joined, the fragments joined with ", ". -/
theorem describeFunctions_two_pass (funcs : List Function) (showSystem : Bool)
    (sys : List String) (cols : Function → List FunctionColumn) :
    (describeFunctions funcs showSystem sys true (fun f => Except.ok (cols f)) =
      Except.ok
        ((visibleFuncs funcs showSystem sys).map
          (fun f => { f with argTypes := joinStr ", " (collectArgs (cols f)) }),
         ((visibleFuncs funcs showSystem sys).map
           (fun f => FEvent.queryCols f.schema f.specificName)) ++
          [FEvent.reset, FEvent.render])) ∧
    (∀ cs : List FunctionColumn,
      collectArgs cs =
        (cs.filter (fun c => decide (c.ordinalPosition ≠ 0))).map formatArg) ∧
    (∀ c : FunctionColumn,
      formatArg c =
        joinStr " "
          ((if c.type = "IN" ∨ c.type = "" then [] else [c.type]) ++
           (if c.name = "" then [] else [c.name]) ++ [c.dataType])) := by
  refine ⟨?_, ?_, ?_⟩
  · simp [describeFunctions, firstPass_ok]
  · intro cs
    induction cs with
    | nil => rfl
    | cons c rest ih =>
      by_cases h : c.ordinalPosition = 0
      · simp [collectArgs, h, ih]
      · simp [collectArgs, h, ih]
  · intro c
    by_cases hm : c.type = "IN" ∨ c.type = ""
    · by_cases hn : c.name = ""
      · have hm' : ¬(c.type ≠ "IN" ∧ c.type ≠ "") := by
          rcases hm with h | h <;> simp [h]
        simp [formatArg, joinStr, hm, hn, hm', String.empty_append]
      · have hm' : ¬(c.type ≠ "IN" ∧ c.type ≠ "") := by
          rcases hm with h | h <;> simp [h]
        simp [formatArg, joinStr, hm, hn, hm', String.empty_append]
    · have hm' : c.type ≠ "IN" ∧ c.type ≠ "" := by
        constructor <;> intro h <;> exact hm (by simp [h])
      by_cases hn : c.name = ""
      · simp [formatArg, joinStr, hm, hn, hm', String.append_empty,
          String.append_assoc]
      · simp [formatArg, joinStr, hm, hn, hm', String.append_assoc]

-- fmt.Sprintf("%.4f", x) embedded on exact rationals: the integer part, a
-- dot, and exactly four decimal digits of x = num/den rounded to the nearest
-- ten-thousandth (implemented with integer arithmetic only, so that concrete
-- renderings reduce in the kernel; ties round away from zero, which agrees
-- with Go on every value whose binary representation is exact).

def pad4 (n : Nat) : String :=
  let s := toString n
  if 4 ≤ s.length then s
  else String.mk (List.replicate (4 - s.length) '0') ++ s

def format4Frac (num den : Int) : String :=
  let neg := decide (num * den < 0)
  let a := num.natAbs
  let b := den.natAbs
  let scaled := (2 * a * 10000 + b) / (2 * b)
  (if neg then "-" else "") ++ toString (scaled / 10000) ++ "." ++
    pad4 (scaled % 10000)

def format4Rat (q : ℚ) : String :=
  format4Frac q.num (q.den : Int)

-- The distinct-fraction of ShowStats (ingres.go:778-781): distFrac starts at
-- 1.0 and is recomputed as NumDistinct/rows only when rows is non-zero and
-- NumDistinct differs from rows; it is then rendered with %.4f
-- (ingres.go:789).  distFrac is the exact value, distFracCell the rendered
-- cell.

def distFrac (rows numDistinct : Int) : ℚ :=
  if rows ≠ 0 ∧ numDistinct ≠ rows then (numDistinct : ℚ) / (rows : ℚ) else 1

def distFracCell (rows numDistinct : Int) : String :=
  if rows ≠ 0 ∧ numDistinct ≠ rows then format4Frac numDistinct rows
  else format4Frac 1 1

/-- C2 counterexample: with row count 0 and 5 distinct values the code keeps
the initial distFrac of 1.0 and renders "1.0000", not the 0 the claim
requires. -/
theorem distFrac_zero_rows_counterexample :
    distFrac 0 5 = 1 ∧ (1 : ℚ) ≠ 0 ∧ distFracCell 0 5 = "1.0000" ∧
    distFracCell 0 5 ≠ format4Frac 0 1 ∧ format4Frac 0 1 = "0.0000" := by
  refine ⟨rfl, by norm_num, by rfl, by decide, by rfl⟩

/-- C2 (amended): the distinct-fraction is 1.0 when the row count is 0
(regardless of numDistinct) or when numDistinct equals the row count, and
otherwise numDistinct divided by the row count, formatted to 4 decimal
places; with the spec's examples evaluated on the rendered cell. -/
theorem distFrac_amended (rows nd : Int) :
    (distFrac rows nd = if rows = 0 ∨ nd = rows then 1 else (nd : ℚ) / (rows : ℚ)) ∧
    (distFracCell rows nd =
      if rows = 0 ∨ nd = rows then format4Frac 1 1 else format4Frac nd rows) ∧
    distFracCell 0 7 = "1.0000" ∧
    distFracCell 100 100 = "1.0000" ∧
    distFracCell 100 25 = "0.2500" ∧
    format4Frac 1 1 = "1.0000" := by
  refine ⟨?_, ?_, by rfl, by rfl, by rfl, by rfl⟩
  · by_cases h1 : rows = 0
    · simp [distFrac, h1]
    · by_cases h2 : nd = rows
      · simp [distFrac, h1, h2]
      · simp [distFrac, h1, h2]
  · by_cases h1 : rows = 0
    · simp [distFracCell, h1]
    · by_cases h2 : nd = rows
      · simp [distFracCell, h1, h2]
      · simp [distFracCell, h1, h2]

-- Top-N rendering of ShowStats (ingres.go:770-798): the frequency list is
-- formatted with %.4f, n is clamped to the frequency-list length, and both
-- the value list and the formatted frequency list are cut to their first n
-- entries before being joined with ", ".

def topNLists (k : Nat) (stat : ColumnStat) : List String × List String :=
  let freqs := stat.topNFreqs.map format4Rat
  let n := if k > freqs.length then freqs.length else k
  (stat.topN.take n, freqs.take n)

def topNCells (k : Nat) (stat : ColumnStat) : String × String :=
  (joinStr ", " (topNLists k stat).1, joinStr ", " (topNLists k stat).2)

/-- C7: when the value and frequency lists have equal length, the verbose
rendering shows exactly min(k, length) top values and min(k, length)
frequencies, namely the first entries of each list in their original
order. -/
theorem topN_truncation (stat : ColumnStat) (k : Nat)
    (h : stat.topN.length = stat.topNFreqs.length) :
    (topNLists k stat).1 = stat.topN.take (min k stat.topN.length) ∧
    (topNLists k stat).1.length = min k stat.topN.length ∧
    (topNLists k stat).2 =
      (stat.topNFreqs.map format4Rat).take (min k stat.topN.length) ∧
    (topNLists k stat).2.length = min k stat.topN.length := by
  have hL : (stat.topNFreqs.map format4Rat).length = stat.topN.length := by
    simp [h]
  have hn : (if k > (stat.topNFreqs.map format4Rat).length then
      (stat.topNFreqs.map format4Rat).length else k) = min k stat.topN.length := by
    rw [hL]
    by_cases hk : k > stat.topN.length
    · simp [hk, Nat.min_eq_right (Nat.le_of_lt hk)]
    · simp [hk, Nat.min_eq_left (Nat.le_of_not_lt hk)]
  have hmm : min (min k stat.topN.length) stat.topN.length = min k stat.topN.length := by
    omega
  refine ⟨?_, ?_, ?_, ?_⟩
  · simp only [topNLists, hn]
  · simp only [topNLists, hn, List.length_take, hmm]
  · simp only [topNLists, hn]
  · simp only [topNLists, List.length_take, hL]
    by_cases hk : k > stat.topN.length
    · simp only [hk, if_true]
      omega
    · simp only [hk, if_false]

def stat10 : ColumnStat :=
  { schema := "s", table := "t", name := "c", avgWidth := 4, nullFrac := 0,
    numDistinct := 10, min := "1", max := "10", mean := "5",
    topN := ["v1", "v2", "v3", "v4", "v5", "v6", "v7", "v8", "v9", "v10"],
    topNFreqs := [1, 1, 1, 1, 1, 1, 1, 1, 1, 1] }

/-- C7 witness: ten top values with limit 3 render exactly the first three
values and three frequencies. -/
theorem topN_truncation_witness :
    (topNLists 3 stat10).1 = ["v1", "v2", "v3"] ∧
    (topNLists 3 stat10).1.length = 3 ∧
    (topNLists 3 stat10).2.length = 3 := by
  have h := topN_truncation stat10 3 (by rfl)
  exact ⟨h.1.trans (by rfl), h.2.1.trans (by rfl), h.2.2.2.trans (by rfl)⟩

-- The system-schema post-filter of the table-listing commands (modelled from
-- the spec, section 4.2: SetFilter installs a client-side predicate that Next
-- and Len respect; ingres.go:227-233, 621-627).

def visibleTables (showSystem : Bool) (sys : List String) (rows : List Table) :
    List Table :=
  if showSystem then rows else rows.filter (fun t => !(sys.contains t.schema))

def visibleIdx (showSystem : Bool) (sys : List String) (rows : List Index) :
    List Index :=
  if showSystem then rows else rows.filter (fun i => !(sys.contains i.schema))

-- A for res.Next() loop that describes each row in turn, stopping at the
-- first error and otherwise counting the rows it described
-- (found++ in ingres.go:234-241, 268-275, 532-546).

def describeEach {α : Type} (d : α → Option String) : List α → Except String Nat
  | [] => .ok 0
  | x :: rest =>
    match d x with
    | some e => .error e
    | none =>
      match describeEach d rest with
      | .error e => .error e
      | .ok n => .ok (n + 1)

-- DescribeTableDetails (ingres.go:211-284): what each of the three reader
-- calls returns, which auxiliary capabilities are present, and how describing
-- each individual matched relation turns out.

structure DTDInput where
  tables : RO Table
  hasColumnReader : Bool
  descTable : Table → Option String
  seqs : RO Sequence
  encodeSeq : Sequence → Option String
  indexes : RO Index
  hasIndexColumnReader : Bool
  descIndex : Index → Option String
  showSystem : Bool
  systemSchemas : List String

-- Tables phase (ingres.go:219-242): runs only when both TableReader and
-- ColumnReader are present; a query error (the sentinel included) aborts.

def tablesPhase (inp : DTDInput) : Except String Nat :=
  if inp.hasColumnReader then
    match inp.tables with
    | .absent => .ok 0
    | .notSupported => .error "failed to list tables: not supported"
    | .failed e => .error ("failed to list tables: " ++ e)
    | .ok rows =>
      describeEach inp.descTable
        (visibleTables inp.showSystem inp.systemSchemas rows)
  else .ok 0

-- Sequences phase (ingres.go:244-250, 521-549): the sentinel is excused, no
-- system post-filter is applied, every row is encoded as its own report.

def seqPhase (inp : DTDInput) : Except String Nat :=
  match inp.seqs with
  | .absent => .ok 0
  | .notSupported => .ok 0
  | .failed e => .error ("failed to describe sequences: " ++ e)
  | .ok rows =>
    match describeEach inp.encodeSeq rows with
    | .error e => .error ("failed to describe sequences: " ++ e)
    | .ok n => .ok n

-- Indexes phase (ingres.go:252-277): runs only when both IndexReader and
-- IndexColumnReader are present; the sentinel is excused.

def indexesPhase (inp : DTDInput) : Except String Nat :=
  if inp.hasIndexColumnReader then
    match inp.indexes with
    | .absent => .ok 0
    | .notSupported => .ok 0
    | .failed e => .error ("failed to list indexes: " ++ e)
    | .ok rows =>
      describeEach inp.descIndex
        (visibleIdx inp.showSystem inp.systemSchemas rows)
  else .ok 0

-- The whole operation: on success it reports the found counter and whether
-- the single "relation not found" message was written (ingres.go:279-283).

def describeTableDetailsRun (inp : DTDInput) : Except String (Nat × Bool) :=
  match tablesPhase inp with
  | .error e => .error e
  | .ok c1 =>
    match seqPhase inp with
    | .error e => .error e
    | .ok c2 =>
      match indexesPhase inp with
      | .error e => .error e
      | .ok c3 =>
        let found := c1 + c2 + c3
        .ok (found, decide (found = 0))

def matchedTables (inp : DTDInput) : List Table :=
  if inp.hasColumnReader then
    match inp.tables with
    | .ok rows => visibleTables inp.showSystem inp.systemSchemas rows
    | _ => []
  else []

def seqRows (inp : DTDInput) : List Sequence :=
  match inp.seqs with
  | .ok rows => rows
  | _ => []

def matchedIndexes (inp : DTDInput) : List Index :=
  if inp.hasIndexColumnReader then
    match inp.indexes with
    | .ok rows => visibleIdx inp.showSystem inp.systemSchemas rows
    | _ => []
  else []

theorem describeEach_ok {α : Type} (d : α → Option String) (l : List α)
    (h : ∀ x ∈ l, d x = none) : describeEach d l = Except.ok l.length := by
  induction l with
  | nil => rfl
  | cons x rest ih =>
    rw [describeEach, h x (by simp), ih (fun y hy => h y (by simp [hy]))]
    rfl

/-- C8: when none of the three reader queries fails (each capability is either
absent, not supported where excused, or returns rows) and each matched
relation is described without error, DescribeTableDetails computes found as
matched tables + matched sequences + matched indexes, returns no error, and
writes the single relation-not-found message exactly when that sum is 0. -/
theorem describeTableDetails_found (inp : DTDInput)
    (hT : inp.tables = RO.absent ∨ ∃ rows, inp.tables = RO.ok rows)
    (hS : inp.seqs = RO.absent ∨ inp.seqs = RO.notSupported ∨
      ∃ rows, inp.seqs = RO.ok rows)
    (hI : inp.indexes = RO.absent ∨ inp.indexes = RO.notSupported ∨
      ∃ rows, inp.indexes = RO.ok rows)
    (h1 : ∀ t ∈ matchedTables inp, inp.descTable t = none)
    (h2 : ∀ s ∈ seqRows inp, inp.encodeSeq s = none)
    (h3 : ∀ i ∈ matchedIndexes inp, inp.descIndex i = none) :
    describeTableDetailsRun inp =
      Except.ok
        ((matchedTables inp).length + (seqRows inp).length +
           (matchedIndexes inp).length,
         decide ((matchedTables inp).length + (seqRows inp).length +
           (matchedIndexes inp).length = 0)) := by
  have hT' : tablesPhase inp = Except.ok (matchedTables inp).length := by
    by_cases hcr : inp.hasColumnReader
    · rcases hT with h | ⟨rows, h⟩
      · simp [tablesPhase, matchedTables, h, hcr]
      · have h1' : ∀ t ∈ visibleTables inp.showSystem inp.systemSchemas rows,
            inp.descTable t = none := by
          intro t ht
          exact h1 t (by simp [matchedTables, h, hcr, ht])
        simp [tablesPhase, matchedTables, h, hcr, describeEach_ok _ _ h1']
    · simp [tablesPhase, matchedTables, hcr]
  have hS' : seqPhase inp = Except.ok (seqRows inp).length := by
    rcases hS with h | h | ⟨rows, h⟩
    · simp [seqPhase, seqRows, h]
    · simp [seqPhase, seqRows, h]
    · have h2' : ∀ s ∈ rows, inp.encodeSeq s = none := by
        intro s hs
        exact h2 s (by simp [seqRows, h, hs])
      simp [seqPhase, seqRows, h, describeEach_ok _ _ h2']
  have hI' : indexesPhase inp = Except.ok (matchedIndexes inp).length := by
    by_cases hic : inp.hasIndexColumnReader
    · rcases hI with h | h | ⟨rows, h⟩
      · simp [indexesPhase, matchedIndexes, h, hic]
      · simp [indexesPhase, matchedIndexes, h, hic]
      · have h3' : ∀ i ∈ visibleIdx inp.showSystem inp.systemSchemas rows,
            inp.descIndex i = none := by
          intro i hi
          exact h3 i (by simp [matchedIndexes, h, hic, hi])
        simp [indexesPhase, matchedIndexes, h, hic, describeEach_ok _ _ h3']
    · simp [indexesPhase, matchedIndexes, hic]
  simp [describeTableDetailsRun, hT', hS', hI']

-- A concrete reader exposing only TableReader and ColumnReader, with no
-- matching relation at all.

def dtdSample : DTDInput :=
  { tables := RO.ok [], hasColumnReader := true, descTable := fun _ => none,
    seqs := RO.absent, encodeSeq := fun _ => none,
    indexes := RO.absent, hasIndexColumnReader := false,
    descIndex := fun _ => none, showSystem := true, systemSchemas := [] }

/-- C8 witness: with no matched table, sequence or index the run succeeds with
found = 0 and the relation-not-found message written. -/
theorem describeTableDetails_found_witness :
    describeTableDetailsRun dtdSample = Except.ok (0, true) := by
  have h := describeTableDetails_found dtdSample
    (Or.inr ⟨[], rfl⟩) (Or.inl rfl) (Or.inl rfl)
    (fun t ht => rfl) (fun s hs => rfl) (fun i hi => rfl)
  simpa [matchedTables, seqRows, matchedIndexes, dtdSample, visibleTables,
    visibleIdx] using h

-- ListTables (ingres.go:601-650): requires TableReader, applies the
-- system-schema post-filter when showSystem is false, and when res.Len() is 0
-- afterwards writes the relation-not-found message and returns nil.  The
-- boolean of the result records whether that message was written; the list is
-- what would be handed to the renderer.

def listTablesRun (hasTR : Bool) (q : Except String (List Table))
    (showSystem : Bool) (sys : List String) :
    Except String (Bool × List Table) :=
  if hasTR then
    match q with
    | .error e => .error ("failed to list tables: " ++ e)
    | .ok rows =>
      let visible := visibleTables showSystem sys rows
      if visible.length = 0 then .ok (true, [])
      else .ok (false, visible)
  else .error "not supported by driver"

/-- C9: when the table query succeeds but no row survives the system-schema
filter, ListTables writes the relation-not-found message and returns no
error. -/
theorem listTables_empty_message (rows : List Table) (showSystem : Bool)
    (sys : List String)
    (h : (visibleTables showSystem sys rows).length = 0) :
    listTablesRun true (Except.ok rows) showSystem sys = Except.ok (true, []) := by
  simp [listTablesRun, h]

def sysTable : Table :=
  { catalog := "", schema := "information_schema", name := "tbl",
    type := "TABLE", rows := 0 }

/-- C9 witness: a single system-schema row with showSystem off filters down to
zero rows, and the message is written with a nil error. -/
theorem listTables_empty_message_witness :
    listTablesRun true (Except.ok [sysTable]) false ["information_schema"] =
      Except.ok (true, []) :=
  listTables_empty_message [sysTable] false ["information_schema"] (by rfl)

end Ingres
